import Mathlib

/-!
A shallow embedding of the command-assembly and credential-store logic of the
vscode-dbt-runner extension (src/dbtRunner.ts, src/projectSetup.ts,
src/configManager.ts, src/types.ts), together with proofs of the testable
properties stated in its specification.

Strings are modelled by Lean `String` (a wrapper around `List Char`); the
JavaScript string primitives used by the source (`includes`, `startsWith`,
`trim`, `split`, `join`, `replace`) are embedded as executable functions on
character lists.  Interactive prompt results (`showInputBox`,
`showQuickPick`, `showWarningMessage`) are modelled as `Option String`
parameters: `none` is a dismissed prompt, `some s` the entered/selected
string.  The persisted configuration update (`config.update`) is modelled by
returning `some newList` when the flow reaches the update call and `none`
when it returns without updating.
-/

namespace DbtRunnerSpec

/-- `ProfileConfig` from src/types.ts as used by dbtRunner.ts and
configManager.ts: a named credential record keyed by `profileTarget`.
The optional `privateKeyPassphrase?` field is an `Option String`. -/
structure ProfileConfig where
  profileTarget : String
  user : String
  privateKeyPath : String
  privateKeyPassphrase : Option String
deriving DecidableEq

/-- `SnowflakeConfig` from src/types.ts (used by `ProjectSetup.runPreCommit`):
like `ProfileConfig` but keyed by `name` and carrying an `account`. -/
structure SnowflakeConfig where
  name : String
  account : String
  user : String
  privateKeyPath : String
  privateKeyPassphrase : Option String
deriving DecidableEq

/-- The JavaScript whitespace characters relevant to `String.prototype.trim`
for the ASCII inputs handled here. -/
def isJsWs (c : Char) : Bool :=
  c == ' ' || c == '\t' || c == '\n' || c == '\r' || c == '\x0b' || c == '\x0c'

/-- Embedding of JavaScript `s.trim()`: drop whitespace from both ends. -/
def jsTrim (s : String) : String :=
  String.mk (((s.data.dropWhile isJsWs).reverse.dropWhile isJsWs).reverse)

/-- Embedding of JavaScript `s.includes(c)` for a single character. -/
def jsIncludesChar (s : String) (c : Char) : Bool :=
  s.data.any (fun x => x == c)

/-- Embedding of JavaScript `s.startsWith(c)` for a single character. -/
def jsStartsWithChar (s : String) (c : Char) : Bool :=
  match s.data with
  | [] => false
  | c0 :: _ => c0 == c

/-- Worker for `jsSplitChar`: scan the characters, cutting at each separator
and keeping empty segments, exactly as JavaScript `split` does. -/
def jsSplitCharAux (sep : Char) : List Char → List Char → List String
  | [], acc => [String.mk acc.reverse]
  | c :: cs, acc =>
    if c == sep then String.mk acc.reverse :: jsSplitCharAux sep cs []
    else jsSplitCharAux sep cs (c :: acc)

/-- Embedding of JavaScript `s.split(sep)` for a one-character separator:
splits at every occurrence, keeping empty segments. -/
def jsSplitChar (s : String) (sep : Char) : List String :=
  jsSplitCharAux sep s.data []

/-- Embedding of JavaScript `parts.join(' ')`: interleave a single space
between the elements. -/
def joinSpace : List String → String
  | [] => ""
  | [t] => t
  | t :: ts => t ++ " " ++ joinSpace ts

/-- Embedding of the JavaScript truthiness default `v || ''` applied to the
optional passphrase field. -/
def jsOrEmpty : Option String → String
  | none => ""
  | some s => if s == "" then "" else s

/-- `normalizePathForPython` from src/types.ts: empty or all-whitespace paths
are returned unchanged, otherwise every backslash is replaced by `/`
(JavaScript `filePath.replace(/\\/g, '/')`). -/
def normalizePathForPython (filePath : String) : String :=
  if filePath == "" || jsTrim filePath == "" then filePath
  else String.mk (filePath.data.map (fun c => if c == '\\' then '/' else c))

/-- `DbtRunner.quotePath` from src/dbtRunner.ts: wrap the path in double
quotes iff it contains a space and does not already start with a quote. -/
def quotePath (pathString : String) : String :=
  if jsIncludesChar pathString ' ' && !jsStartsWithChar pathString '"' then
    "\"" ++ pathString ++ "\""
  else pathString

/-- The environment built by `DbtRunner.executeDbtCommand`
(src/dbtRunner.ts): the ambient process environment overlaid with
`DBT_USER`, `DBT_PVK_PATH` (normalized) and `DBT_PVK_PASS`
(passphrase defaulted to the empty string). -/
def dbtRunnerEnv (ambient : String → Option String) (p : ProfileConfig) :
    String → Option String :=
  fun k =>
    if k = "DBT_USER" then some p.user
    else if k = "DBT_PVK_PATH" then some (normalizePathForPython p.privateKeyPath)
    else if k = "DBT_PVK_PASS" then some (jsOrEmpty p.privateKeyPassphrase)
    else ambient k

/-- The environment built by `ProjectSetup.runPreCommit`
(src/projectSetup.ts): the ambient process environment overlaid with
`DBT_ACCOUNT`, `DBT_USER`, `DBT_PVK_PATH` (taken verbatim, not normalized)
and `DBT_PVK_PASS`. -/
def preCommitEnv (ambient : String → Option String) (s : SnowflakeConfig) :
    String → Option String :=
  fun k =>
    if k = "DBT_ACCOUNT" then some s.account
    else if k = "DBT_USER" then some s.user
    else if k = "DBT_PVK_PATH" then some s.privateKeyPath
    else if k = "DBT_PVK_PASS" then some (jsOrEmpty s.privateKeyPassphrase)
    else ambient k

/-- The extra-argument tokens appended by `DbtRunner.executeDbtCommand`:
`additionalParams.trim().split(' ')` when the trimmed string is non-empty,
nothing otherwise. -/
def extraArgTokens (additionalParams : String) : List String :=
  if jsTrim additionalParams == "" then []
  else jsSplitChar (jsTrim additionalParams) ' '

/-- The command token list built by `DbtRunner.executeDbtCommand`
(src/dbtRunner.ts lines 384-392).  `fullDbtPath` and `profilesPath` stand
for the host-computed `path.join(workspaceRoot, dbtProjectPath)` and
`path.join(fullDbtPath, 'profiles')` directory strings. -/
def executeDbtCommandParts (dbtCommand fullDbtPath profilesPath environment
    additionalParams : String) : List String :=
  (["poetry", "run", "dbt"] ++ jsSplitChar dbtCommand ' ')
    ++ ["--project-dir", quotePath fullDbtPath,
        "--profiles-dir", quotePath profilesPath,
        "--target", environment]
    ++ extraArgTokens additionalParams

/-- The full command string `commandParts.join(' ')` sent to the terminal. -/
def executeDbtFullCommand (dbtCommand fullDbtPath profilesPath environment
    additionalParams : String) : String :=
  joinSpace (executeDbtCommandParts dbtCommand fullDbtPath profilesPath
    environment additionalParams)

/-- Embedding of JavaScript `Array.prototype.findIndex`: index of the first
element satisfying the predicate, `none` when there is none. -/
def jsFindIndex (p : α → Bool) : List α → Option Nat
  | [] => none
  | a :: as => if p a then some 0 else Option.map (fun n => n + 1) (jsFindIndex p as)

/-- The store update performed by `ConfigManager.addProfileConfig`
(src/configManager.ts lines 510-536) once all input prompts have succeeded
and produced `newConfig`: on a name collision the flow asks for overwrite
confirmation (`overwriteAnswer`) and replaces the colliding entry in place
only on an explicit `Yes`, otherwise it returns without updating (`none`);
on a fresh name it appends.  `some l` models `config.update(..., l, ...)`. -/
def addProfileStore (configs : List ProfileConfig) (newConfig : ProfileConfig)
    (overwriteAnswer : Option String) : Option (List ProfileConfig) :=
  match jsFindIndex (fun cfg => cfg.profileTarget == newConfig.profileTarget) configs with
  | some i =>
      if overwriteAnswer = some "Yes" then some (configs.set i newConfig)
      else none
  | none => some (configs ++ [newConfig])

/-- The store update performed by `ConfigManager.removeProfileConfig`
(src/configManager.ts lines 543-574): nothing happens on an empty store, a
dismissed selection, or an unconfirmed removal; on a confirmed selection the
stored list is replaced by the records whose `profileTarget` differs from
the selection (`configs.filter(cfg => cfg.profileTarget !== selected)`). -/
def removeProfileStore (configs : List ProfileConfig) (selected : Option String)
    (confirm : Option String) : Option (List ProfileConfig) :=
  if configs.isEmpty then none
  else
    match selected with
    | none => none
    | some sel =>
        if confirm = some "Yes" then
          some (configs.filter (fun cfg => !(cfg.profileTarget == sel)))
        else none

/-- JavaScript truthiness of the optional stored passphrase: `!passphrase`
holds for an absent field and for the empty string. -/
def falsyOpt : Option String → Bool
  | none => true
  | some s => s == ""

/-- `DbtRunner.getProfileConfig` (src/dbtRunner.ts lines 318-364), the
profile-resolution step: fail on an empty store, look up the first record
whose `profileTarget` equals the requested environment, and when its stored
passphrase is falsy prompt for one (`promptAnswer`), treating a dismissed
prompt and an entered empty string alike as cancellation. -/
def resolveProfile (configs : List ProfileConfig) (environment : String)
    (promptAnswer : Option String) : Option ProfileConfig :=
  if configs.isEmpty then none
  else
    match configs.find? (fun cfg => cfg.profileTarget == environment) with
    | none => none
    | some matchingConfig =>
        if falsyOpt matchingConfig.privateKeyPassphrase then
          match promptAnswer with
          | none => none
          | some entered =>
              if entered == "" then none
              else some { matchingConfig with privateKeyPassphrase := some entered }
        else
          some { matchingConfig with
                   privateKeyPassphrase := matchingConfig.privateKeyPassphrase }

/-- Whether a string is a Windows drive-letter absolute path in the sense of
the source's regular expression `/^[A-Z]:\\/`. -/
def isDrivePath (s : String) : Bool :=
  match s.data with
  | c1 :: c2 :: c3 :: _ =>
      decide ('A' ≤ c1) && decide (c1 ≤ 'Z') && (c2 == ':') && (c3 == '\\')
  | _ => false

/-- The `validateInput` callback of the private-key-path prompt in
`ConfigManager.addProfileConfig` (src/configManager.ts lines 463-475):
`none` means the input is accepted, `some msg` is the inline validation
message under which the host re-shows the prompt. -/
def validatePrivateKeyPath (value : String) : Option String :=
  if value == "" || jsTrim value == "" then some "Private key path is required"
  else if !jsStartsWithChar value '/' && !isDrivePath value then
    some "Please provide an absolute path"
  else none

/-- Worker for `splitQuoted`: cut at spaces outside double quotes, keep the
quote characters in the tokens, drop empty segments. -/
def splitQuotedAux : List Char → Bool → List Char → List String
  | [], _, acc => if acc.isEmpty then [] else [String.mk acc.reverse]
  | c :: cs, inQ, acc =>
    if c == '"' then splitQuotedAux cs (!inQ) (c :: acc)
    else if c == ' ' && !inQ then
      if acc.isEmpty then splitQuotedAux cs false []
      else String.mk acc.reverse :: splitQuotedAux cs false []
    else splitQuotedAux cs inQ (c :: acc)

/-- Split a command line at whitespace while respecting double-quoted
segments: the observation the specification applies to the assembled
command string. -/
def splitQuoted (s : String) : List String :=
  splitQuotedAux s.data false []

/-- A token that survives a whitespace split intact: non-empty, no space,
no quote character. -/
def PlainToken (t : String) : Prop :=
  t ≠ "" ∧ ∀ c ∈ t.data, c ≠ ' ' ∧ c ≠ '"'

/-- A double-quoted token: a quote, quote-free contents, a closing quote. -/
def QuotedToken (t : String) : Prop :=
  ∃ m : List Char, t.data = '"' :: m ++ ['"'] ∧ ∀ c ∈ m, c ≠ '"'

/-- A token that the quote-respecting split recovers from a joined line. -/
def WfToken (t : String) : Prop :=
  PlainToken t ∨ QuotedToken t

instance (t : String) : Decidable (PlainToken t) := by
  unfold PlainToken
  infer_instance

/-- A concrete profile record used to instantiate the theorems. -/
def profileEx : ProfileConfig :=
  { profileTarget := "dev", user := "alice",
    privateKeyPath := "C:\\keys\\a.p8", privateKeyPassphrase := none }

/-- A concrete Snowflake record with a Windows-style key path. -/
def snowEx : SnowflakeConfig :=
  { name := "dev", account := "acct", user := "alice",
    privateKeyPath := "C:\\keys\\a.p8", privateKeyPassphrase := some "pw" }

/-- A concrete ambient process environment with a single variable. -/
def ambientEx : String → Option String :=
  fun k => if k = "PATH" then some "/usr/bin" else none

/-- A stored record whose passphrase is the empty string. -/
def cfgEmptyPass : ProfileConfig :=
  { profileTarget := "dev", user := "alice",
    privateKeyPath := "/keys/a.p8", privateKeyPassphrase := some "" }

/-- A stored record with a non-empty passphrase. -/
def cfgWithPass : ProfileConfig :=
  { profileTarget := "dev", user := "alice",
    privateKeyPath := "/keys/a.p8", privateKeyPassphrase := some "pw" }

/-- A second stored record under a different name. -/
def cfgProd : ProfileConfig :=
  { profileTarget := "prod", user := "bob",
    privateKeyPath := "/keys/b.p8", privateKeyPassphrase := some "pw2" }

theorem jsIncludesChar_iff (s : String) (c : Char) :
    jsIncludesChar s c = true ↔ c ∈ s.data := by
  simp [jsIncludesChar, List.any_eq_true]

theorem jsStartsWithChar_iff (s : String) (c : Char) :
    jsStartsWithChar s c = true ↔ s.data.head? = some c := by
  unfold jsStartsWithChar
  cases s.data <;> simp

/-- C2: `quotePath` wraps a path in exactly one pair of double quotes when it
contains a space and does not already start with a quote; a path without a
space is returned unchanged; a path starting with a quote is returned
unchanged and hence never double-wrapped. -/
theorem C2_quote_path (p : String) :
    ((' ' ∈ p.data ∧ p.data.head? ≠ some '"') →
        quotePath p = "\"" ++ p ++ "\"")
    ∧ (' ' ∉ p.data → quotePath p = p)
    ∧ (p.data.head? = some '"' → quotePath p = p) := by
  unfold quotePath
  refine ⟨fun h => ?_, fun h => ?_, fun h => ?_⟩
  · have h1 : jsIncludesChar p ' ' = true := (jsIncludesChar_iff p ' ').mpr h.1
    have h2 : jsStartsWithChar p '"' = false := by
      cases hb : jsStartsWithChar p '"'
      · rfl
      · exact absurd ((jsStartsWithChar_iff p '"').mp hb) h.2
    simp [h1, h2]
  · have h1 : jsIncludesChar p ' ' = false := by
      cases hb : jsIncludesChar p ' '
      · rfl
      · exact absurd ((jsIncludesChar_iff p ' ').mp hb) h
    simp [h1]
  · have h2 : jsStartsWithChar p '"' = true := (jsStartsWithChar_iff p '"').mpr h
    simp [h2]

/-- Witness for C2 at three concrete paths. -/
theorem C2_quote_path_witness :
    quotePath "a b" = "\"a b\"" ∧ quotePath "ab" = "ab"
    ∧ quotePath "\"a b\"" = "\"a b\"" :=
  ⟨(C2_quote_path "a b").1 ⟨by decide, by decide⟩,
   (C2_quote_path "ab").2.1 (by decide),
   (C2_quote_path "\"a b\"").2.2 (by decide)⟩

/-- C3: both terminal-environment builders return the ambient environment
with exactly the fixed profile-derived keys overlaid: every other key maps
to its ambient value (so nothing else is added and every ambient key
survives), the fixed keys carry the profile's values even when the ambient
environment also defines them, and the passphrase key defaults to the empty
string when the profile's passphrase is absent. -/
theorem C3_environment (ambient : String → Option String) (p : ProfileConfig)
    (s : SnowflakeConfig) :
    (∀ k, k ≠ "DBT_USER" → k ≠ "DBT_PVK_PATH" → k ≠ "DBT_PVK_PASS" →
        dbtRunnerEnv ambient p k = ambient k)
    ∧ dbtRunnerEnv ambient p "DBT_USER" = some p.user
    ∧ dbtRunnerEnv ambient p "DBT_PVK_PATH"
        = some (normalizePathForPython p.privateKeyPath)
    ∧ dbtRunnerEnv ambient p "DBT_PVK_PASS"
        = some (jsOrEmpty p.privateKeyPassphrase)
    ∧ (p.privateKeyPassphrase = none →
        dbtRunnerEnv ambient p "DBT_PVK_PASS" = some "")
    ∧ (∀ k v, ambient k = some v → ∃ w, dbtRunnerEnv ambient p k = some w)
    ∧ (∀ k, k ≠ "DBT_ACCOUNT" → k ≠ "DBT_USER" → k ≠ "DBT_PVK_PATH" →
        k ≠ "DBT_PVK_PASS" → preCommitEnv ambient s k = ambient k)
    ∧ preCommitEnv ambient s "DBT_ACCOUNT" = some s.account
    ∧ preCommitEnv ambient s "DBT_USER" = some s.user
    ∧ preCommitEnv ambient s "DBT_PVK_PATH" = some s.privateKeyPath
    ∧ preCommitEnv ambient s "DBT_PVK_PASS"
        = some (jsOrEmpty s.privateKeyPassphrase)
    ∧ (s.privateKeyPassphrase = none →
        preCommitEnv ambient s "DBT_PVK_PASS" = some "")
    ∧ (∀ k v, ambient k = some v → ∃ w, preCommitEnv ambient s k = some w) := by
  refine ⟨fun k h1 h2 h3 => ?_, ?_, ?_, ?_, fun h => ?_, fun k v hv => ?_,
    fun k h0 h1 h2 h3 => ?_, ?_, ?_, ?_, ?_, fun h => ?_, fun k v hv => ?_⟩
  · simp [dbtRunnerEnv, h1, h2, h3]
  · simp [dbtRunnerEnv]
  · simp [dbtRunnerEnv]
  · simp [dbtRunnerEnv]
  · simp [dbtRunnerEnv, h, jsOrEmpty]
  · by_cases h1 : k = "DBT_USER" <;> by_cases h2 : k = "DBT_PVK_PATH" <;>
      by_cases h3 : k = "DBT_PVK_PASS" <;>
      simp [dbtRunnerEnv, h1, h2, h3, hv]
  · simp [preCommitEnv, h0, h1, h2, h3]
  · simp [preCommitEnv]
  · simp [preCommitEnv]
  · simp [preCommitEnv]
  · simp [preCommitEnv]
  · simp [preCommitEnv, h, jsOrEmpty]
  · by_cases h0 : k = "DBT_ACCOUNT" <;> by_cases h1 : k = "DBT_USER" <;>
      by_cases h2 : k = "DBT_PVK_PATH" <;> by_cases h3 : k = "DBT_PVK_PASS" <;>
      simp [preCommitEnv, h0, h1, h2, h3, hv]

/-- Witness for C3 at a concrete ambient environment and records. -/
theorem C3_environment_witness :
    dbtRunnerEnv ambientEx profileEx "PATH" = some "/usr/bin"
    ∧ dbtRunnerEnv ambientEx profileEx "HOME" = none
    ∧ dbtRunnerEnv ambientEx profileEx "DBT_PVK_PASS" = some ""
    ∧ preCommitEnv ambientEx snowEx "PATH" = some "/usr/bin" := by
  have h := C3_environment ambientEx profileEx snowEx
  refine ⟨?_, ?_, h.2.2.2.2.1 rfl, ?_⟩
  · rw [h.1 "PATH" (by decide) (by decide) (by decide)]; rfl
  · rw [h.1 "HOME" (by decide) (by decide) (by decide)]; rfl
  · rw [h.2.2.2.2.2.2.1 "PATH" (by decide) (by decide) (by decide) (by decide)]
    rfl

/-- C4 counterexample: `ProjectSetup.runPreCommit` builds a terminal
environment from a profile but places the key path verbatim, so for a
backslash-separated key path the environment value differs from the
normalized path, refuting the claim that every such flow normalizes. -/
theorem C4_counterexample :
    preCommitEnv ambientEx snowEx "DBT_PVK_PATH" = some "C:\\keys\\a.p8"
    ∧ normalizePathForPython "C:\\keys\\a.p8" = "C:/keys/a.p8"
    ∧ preCommitEnv ambientEx snowEx "DBT_PVK_PATH"
        ≠ some (normalizePathForPython snowEx.privateKeyPath) := by
  refine ⟨rfl, by decide, by decide⟩

/-- C4 (amended): the `DbtRunner.executeDbtCommand` flow places the
normalized key path (every backslash replaced by `/`, empty or
all-whitespace paths unchanged) in the environment, while the
`ProjectSetup.runPreCommit` flow places the profile's key path verbatim. -/
theorem C4_normalization (ambient : String → Option String) (p : ProfileConfig)
    (s : SnowflakeConfig) :
    dbtRunnerEnv ambient p "DBT_PVK_PATH"
      = some (normalizePathForPython p.privateKeyPath)
    ∧ preCommitEnv ambient s "DBT_PVK_PATH" = some s.privateKeyPath
    ∧ (∀ fp : String, jsTrim fp ≠ "" →
        (normalizePathForPython fp).data
          = fp.data.map (fun c => if c = '\\' then '/' else c))
    ∧ (∀ fp : String, jsTrim fp = "" → normalizePathForPython fp = fp) := by
  refine ⟨by simp [dbtRunnerEnv], by simp [preCommitEnv],
    fun fp hfp => ?_, fun fp hfp => ?_⟩
  · have h1 : (fp == "") = false := by
      cases hb : fp == ""
      · rfl
      · exact absurd (by rw [beq_iff_eq.mp hb]; rfl) hfp
    have h2 : (jsTrim fp == "") = false := by
      cases hb : jsTrim fp == ""
      · rfl
      · exact absurd (beq_iff_eq.mp hb) hfp
    simp only [normalizePathForPython, h1, h2, Bool.or_self, Bool.false_or,
      if_neg Bool.false_ne_true]
    simp [beq_iff_eq]
  · simp [normalizePathForPython, hfp]

/-- Witness for C4 (amended) at concrete profiles and paths. -/
theorem C4_normalization_witness :
    dbtRunnerEnv ambientEx profileEx "DBT_PVK_PATH"
      = some (normalizePathForPython profileEx.privateKeyPath)
    ∧ preCommitEnv ambientEx snowEx "DBT_PVK_PATH"
        = some snowEx.privateKeyPath
    ∧ (normalizePathForPython "C:\\k s\\a.p8").data
        = ("C:\\k s\\a.p8" : String).data.map (fun c => if c = '\\' then '/' else c)
    ∧ normalizePathForPython " " = " " :=
  ⟨(C4_normalization ambientEx profileEx snowEx).1,
   (C4_normalization ambientEx profileEx snowEx).2.1,
   (C4_normalization ambientEx profileEx snowEx).2.2.1 "C:\\k s\\a.p8" (by decide),
   (C4_normalization ambientEx profileEx snowEx).2.2.2 " " (by decide)⟩

theorem jsFindIndex_isSome_of_mem {α : Type} {p : α → Bool} {l : List α}
    (a : α) (ha : a ∈ l) (hp : p a = true) :
    ∃ i, jsFindIndex p l = some i := by
  induction l with
  | nil => cases ha
  | cons b bs ih =>
      unfold jsFindIndex
      by_cases hb : p b = true
      · exact ⟨0, by simp [hb]⟩
      · rcases List.mem_cons.mp ha with rfl | ha2
        · exact absurd hp hb
        · rcases ih ha2 with ⟨i, hi⟩
          exact ⟨i + 1, by simp [hb, hi]⟩

/-- C5: adding a record whose name collides with a stored record's name,
when the overwrite prompt is declined or dismissed, performs no update and
leaves the stored list exactly unchanged. -/
theorem C5_no_overwrite_without_confirm (configs : List ProfileConfig)
    (newConfig : ProfileConfig) (ans : Option String)
    (hdup : ∃ c ∈ configs, c.profileTarget = newConfig.profileTarget)
    (hno : ans ≠ some "Yes") :
    addProfileStore configs newConfig ans = none := by
  rcases hdup with ⟨c, hc, hpt⟩
  have hpc : (c.profileTarget == newConfig.profileTarget) = true := by
    rw [hpt]
    exact beq_self_eq_true _
  rcases jsFindIndex_isSome_of_mem
      (p := fun cfg => cfg.profileTarget == newConfig.profileTarget)
      c hc hpc with ⟨i, hi⟩
  unfold addProfileStore
  rw [hi]
  exact if_neg hno

/-- Witness for C5: a colliding add declined with "No" changes nothing. -/
theorem C5_no_overwrite_without_confirm_witness :
    addProfileStore [cfgWithPass] cfgEmptyPass (some "No") = none :=
  C5_no_overwrite_without_confirm [cfgWithPass] cfgEmptyPass (some "No")
    ⟨cfgWithPass, by decide, by decide⟩ (by decide)

/-- C9: when the resolved record's stored passphrase is falsy (absent or
empty), resolution prompts: a dismissed prompt yields "not found", an
entered empty string is treated as cancellation by the falsy check and also
yields "not found", and a non-empty entry is returned populated. -/
theorem C9_empty_passphrase_prompt (configs : List ProfileConfig)
    (environment : String) (m : ProfileConfig)
    (hne : configs ≠ [])
    (hfind : configs.find? (fun cfg => cfg.profileTarget == environment) = some m)
    (hfalsy : falsyOpt m.privateKeyPassphrase = true) :
    resolveProfile configs environment none = none
    ∧ resolveProfile configs environment (some "") = none
    ∧ ∀ s, s ≠ "" →
        resolveProfile configs environment (some s)
          = some { m with privateKeyPassphrase := some s } := by
  have hemp : configs.isEmpty = false := by
    cases configs
    · exact absurd rfl hne
    · rfl
  refine ⟨?_, ?_, fun s hs => ?_⟩
  · simp [resolveProfile, hemp, hfind, hfalsy]
  · simp [resolveProfile, hemp, hfind, hfalsy]
  · simp [resolveProfile, hemp, hfind, hfalsy, hs]

/-- Witness for C9 at a one-record store with an empty stored passphrase. -/
theorem C9_empty_passphrase_prompt_witness :
    resolveProfile [cfgEmptyPass] "dev" none = none
    ∧ resolveProfile [cfgEmptyPass] "dev" (some "") = none
    ∧ resolveProfile [cfgEmptyPass] "dev" (some "s3cret")
        = some { cfgEmptyPass with privateKeyPassphrase := some "s3cret" } := by
  have h := C9_empty_passphrase_prompt [cfgEmptyPass] "dev" cfgEmptyPass
    (by decide) (by decide) (by decide)
  exact ⟨h.1, h.2.1, h.2.2 "s3cret" (by decide)⟩

/-- C10: a confirmed removal replaces the stored list by exactly the records
whose name differs from the selection: the result is a sublist (records
unchanged, in their original relative order), no surviving record bears the
selected name, every differently-named record survives, and multiplicities
of records are preserved except that records bearing the selected name drop
to zero. -/
theorem C10_remove_filter (configs : List ProfileConfig) (sel : String)
    (hne : configs ≠ []) :
    ∃ l, removeProfileStore configs (some sel) (some "Yes") = some l
      ∧ l.Sublist configs
      ∧ (∀ c ∈ l, c.profileTarget ≠ sel)
      ∧ (∀ c ∈ configs, c.profileTarget ≠ sel → c ∈ l)
      ∧ ∀ c : ProfileConfig,
          l.count c = if c.profileTarget = sel then 0 else configs.count c := by
  have hemp : configs.isEmpty = false := by
    cases configs
    · exact absurd rfl hne
    · rfl
  refine ⟨configs.filter (fun cfg => !(cfg.profileTarget == sel)),
    ?_, List.filter_sublist configs, fun c hc => ?_, fun c hc hne2 => ?_,
    fun c => ?_⟩
  · simp [removeProfileStore, hemp]
  · simpa using List.of_mem_filter hc
  · exact List.mem_filter.mpr ⟨hc, by simpa using hne2⟩
  · by_cases h : c.profileTarget = sel
    · rw [if_pos h, List.count_eq_zero]
      intro hc
      have hpc := List.of_mem_filter hc
      simp [h] at hpc
    · rw [if_neg h]
      exact List.count_filter (by simpa using h)

/-- Witness for C10 at a concrete two-record store. -/
theorem C10_remove_filter_witness :
    ∃ l, removeProfileStore [cfgWithPass, cfgProd] (some "dev") (some "Yes")
        = some l
      ∧ l.Sublist [cfgWithPass, cfgProd]
      ∧ (∀ c ∈ l, c.profileTarget ≠ "dev")
      ∧ (∀ c ∈ [cfgWithPass, cfgProd], c.profileTarget ≠ "dev" → c ∈ l)
      ∧ ∀ c : ProfileConfig,
          l.count c
            = if c.profileTarget = "dev" then 0
              else List.count c [cfgWithPass, cfgProd] :=
  C10_remove_filter [cfgWithPass, cfgProd] "dev" (by decide)

theorem jsFindIndex_none_iff {α : Type} (p : α → Bool) (l : List α) :
    jsFindIndex p l = none ↔ ∀ a ∈ l, p a = false := by
  induction l with
  | nil => simp [jsFindIndex]
  | cons a as ih =>
      unfold jsFindIndex
      cases ha : p a
      · simp [ha, Option.map_eq_none', ih, List.forall_mem_cons]
      · simp [ha, List.forall_mem_cons]

theorem jsFindIndex_some {α : Type} (p : α → Bool) (l : List α) (i : Nat)
    (h : jsFindIndex p l = some i) :
    ∃ hlt : i < l.length, p (l.get ⟨i, hlt⟩) = true := by
  induction l generalizing i with
  | nil => cases h
  | cons a as ih =>
      unfold jsFindIndex at h
      by_cases ha : p a = true
      · rw [if_pos ha] at h
        cases h
        exact ⟨Nat.succ_pos _, ha⟩
      · rw [if_neg ha] at h
        rcases Option.map_eq_some'.mp h with ⟨j, hj, rfl⟩
        rcases ih j hj with ⟨hlt, hpj⟩
        exact ⟨Nat.succ_lt_succ hlt, hpj⟩

theorem find?_append_of_all_false {α : Type} (p : α → Bool) (l₁ l₂ : List α)
    (h : ∀ a ∈ l₁, p a = false) :
    (l₁ ++ l₂).find? p = l₂.find? p := by
  induction l₁ with
  | nil => rfl
  | cons a as ih =>
      rw [List.cons_append, List.find?_cons, h a (List.mem_cons_self a as)]
      exact ih fun b hb => h b (List.mem_cons_of_mem a hb)

theorem map_set_self {α β : Type} (f : α → β) (l : List α) (i : Nat) (a : α)
    (hlt : i < l.length) (hf : f (l.get ⟨i, hlt⟩) = f a) :
    (l.set i a).map f = l.map f := by
  induction l generalizing i with
  | nil => cases hlt
  | cons b bs ih =>
      cases i with
      | zero =>
          rw [List.set_cons_zero, List.map_cons, List.map_cons]
          exact congrArg (fun x => x :: bs.map f) hf.symm
      | succ j =>
          rw [List.set_cons_succ, List.map_cons, List.map_cons,
            ih j (Nat.lt_of_succ_lt_succ hlt) hf]

/-- Replacing the optional passphrase field by itself is the identity. -/
theorem profileConfig_eta (m : ProfileConfig) :
    { m with privateKeyPassphrase := m.privateKeyPassphrase } = m := rfl

/-- C6 (amended): a record added under a fresh name is appended, and,
provided its stored passphrase is non-empty, a subsequent resolve of that
name returns the exact record, all fields equal.  (For an empty stored
passphrase resolution re-prompts and cannot return the original record; see
the counterexample.) -/
theorem C6_roundtrip (configs : List ProfileConfig) (newConfig : ProfileConfig)
    (ans promptAnswer : Option String)
    (hfresh : ∀ c ∈ configs, c.profileTarget ≠ newConfig.profileTarget)
    (hpass : ∃ s, newConfig.privateKeyPassphrase = some s ∧ s ≠ "") :
    addProfileStore configs newConfig ans = some (configs ++ [newConfig])
    ∧ resolveProfile (configs ++ [newConfig]) newConfig.profileTarget
        promptAnswer = some newConfig := by
  have hfalse : ∀ c ∈ configs,
      (c.profileTarget == newConfig.profileTarget) = false :=
    fun c hc => beq_eq_false_iff_ne.mpr (hfresh c hc)
  have hnone : jsFindIndex
      (fun cfg => cfg.profileTarget == newConfig.profileTarget) configs
        = none :=
    (jsFindIndex_none_iff _ _).mpr hfalse
  constructor
  · unfold addProfileStore
    rw [hnone]
  · have hemp : (configs ++ [newConfig]).isEmpty = false := by
      cases configs <;> rfl
    have hfind : (configs ++ [newConfig]).find?
        (fun cfg => cfg.profileTarget == newConfig.profileTarget)
          = some newConfig := by
      rw [find?_append_of_all_false _ _ _ hfalse, List.find?_cons,
        beq_self_eq_true]
    rcases hpass with ⟨s, hs, hsne⟩
    have hfalsy : falsyOpt newConfig.privateKeyPassphrase = false := by
      rw [hs]
      simpa [falsyOpt] using hsne
    simp [resolveProfile, hemp, hfind, hfalsy, profileConfig_eta]

/-- Witness for C6 (amended) at a concrete store and record. -/
theorem C6_roundtrip_witness :
    addProfileStore [cfgProd] cfgWithPass none = some [cfgProd, cfgWithPass]
    ∧ resolveProfile [cfgProd, cfgWithPass] "dev" none = some cfgWithPass :=
  C6_roundtrip [cfgProd] cfgWithPass none none (by decide)
    ⟨"pw", rfl, by decide⟩

/-- C6 counterexample: the record `cfgEmptyPass` is added under a fresh name
(the store is empty), yet resolving its name does not return that exact
record: with an entered passphrase the returned record differs in the
passphrase field, and with a dismissed prompt nothing is returned. -/
theorem C6_counterexample :
    addProfileStore [] cfgEmptyPass none = some [cfgEmptyPass]
    ∧ resolveProfile [cfgEmptyPass] "dev" (some "s3cret") ≠ some cfgEmptyPass
    ∧ resolveProfile [cfgEmptyPass] "dev" none = none := by
  refine ⟨rfl, by decide, by decide⟩

/-- C7: pairwise-distinct record names are preserved by every completed add
(append on a fresh name, in-place replacement on a confirmed collision) and
by every completed remove. -/
theorem C7_unique_names (configs : List ProfileConfig)
    (hnodup : (configs.map (fun c => c.profileTarget)).Nodup) :
    (∀ newConfig ans l, addProfileStore configs newConfig ans = some l →
        (l.map (fun c => c.profileTarget)).Nodup)
    ∧ (∀ sel confirm l, removeProfileStore configs sel confirm = some l →
        (l.map (fun c => c.profileTarget)).Nodup) := by
  constructor
  · intro newConfig ans l hl
    unfold addProfileStore at hl
    cases hidx : jsFindIndex
        (fun cfg => cfg.profileTarget == newConfig.profileTarget) configs with
    | none =>
        rw [hidx] at hl
        simp only [Option.some.injEq] at hl
        subst hl
        rw [List.map_append, List.nodup_append]
        refine ⟨hnodup, List.nodup_singleton _, ?_⟩
        rw [List.map_singleton, List.disjoint_singleton]
        intro hmem
        rcases List.mem_map.mp hmem with ⟨c, hc, hcpt⟩
        have := (jsFindIndex_none_iff _ _).mp hidx c hc
        rw [beq_eq_false_iff_ne] at this
        exact this hcpt
    | some i =>
        rw [hidx] at hl
        change (if ans = some "Yes" then some (configs.set i newConfig)
          else none) = some l at hl
        by_cases hans : ans = some "Yes"
        · rw [if_pos hans] at hl
          simp only [Option.some.injEq] at hl
          subst hl
          rcases jsFindIndex_some _ _ _ hidx with ⟨hlt, hpi⟩
          rw [map_set_self (fun c => c.profileTarget) configs i newConfig hlt
            (beq_iff_eq.mp hpi)]
          exact hnodup
        · rw [if_neg hans] at hl
          cases hl
  · intro sel confirm l hl
    unfold removeProfileStore at hl
    cases hemp : configs.isEmpty with
    | true => rw [hemp] at hl; cases hl
    | false =>
        rw [hemp] at hl
        cases sel with
        | none => cases hl
        | some s =>
            change (if confirm = some "Yes"
              then some (configs.filter (fun cfg => !(cfg.profileTarget == s)))
              else none) = some l at hl
            by_cases hc : confirm = some "Yes"
            · rw [if_pos hc] at hl
              simp only [Option.some.injEq] at hl
              subst hl
              exact List.Nodup.sublist
                (List.Sublist.map _ (List.filter_sublist configs)) hnodup
            · rw [if_neg hc] at hl
              cases hl

/-- Witness for C7: a confirmed overwrite and a confirmed removal on a
concrete two-record store with distinct names. -/
theorem C7_unique_names_witness :
    (([cfgEmptyPass, cfgProd] : List ProfileConfig).map
        (fun c => c.profileTarget)).Nodup
    ∧ (([cfgProd] : List ProfileConfig).map (fun c => c.profileTarget)).Nodup := by
  have h := C7_unique_names [cfgWithPass, cfgProd] (by decide)
  exact ⟨h.1 cfgEmptyPass (some "Yes") [cfgEmptyPass, cfgProd] (by decide),
         h.2 (some "dev") (some "Yes") [cfgProd] (by decide)⟩

theorem jsTrim_ne_empty_of_head {s : String} {c : Char} {t : List Char}
    (hdata : s.data = c :: t) (hc : isJsWs c = false) : jsTrim s ≠ "" := by
  intro h
  have hdat : (((s.data.dropWhile isJsWs).reverse.dropWhile isJsWs).reverse)
      = [] := congrArg String.data h
  rw [List.reverse_eq_nil_iff, List.dropWhile_eq_nil_iff] at hdat
  have hdw : List.dropWhile isJsWs s.data = s.data := by
    rw [hdata]
    simp [List.dropWhile_cons, hc]
  rw [hdw, hdata] at hdat
  have hcontra := hdat c (List.mem_reverse.mpr (List.mem_cons_self c t))
  rw [hc] at hcontra
  cases hcontra

theorem isJsWs_of_upper {c : Char} (h1 : 'A' ≤ c) (h2 : c ≤ 'Z') :
    isJsWs c = false := by
  cases hb : isJsWs c
  · rfl
  · exfalso
    have hb2 := hb
    simp only [isJsWs, Bool.or_eq_true, beq_iff_eq] at hb2
    rcases hb2 with ((((rfl | rfl) | rfl) | rfl) | rfl) | rfl <;>
      exact absurd h1 (by decide)

theorem isDrivePath_head {s : String} (h : isDrivePath s = true) :
    ∃ c1 t, s.data = c1 :: t ∧ 'A' ≤ c1 ∧ c1 ≤ 'Z' := by
  unfold isDrivePath at h
  rcases hd : s.data with _ | ⟨c1, rest⟩
  · rw [hd] at h
    cases h
  · rcases rest with _ | ⟨c2, rest2⟩
    · rw [hd] at h
      cases h
    · rcases rest2 with _ | ⟨c3, rest3⟩
      · rw [hd] at h
        cases h
      · rw [hd] at h
        change (decide ('A' ≤ c1) && decide (c1 ≤ 'Z') && (c2 == ':')
          && (c3 == '\\')) = true at h
        simp only [Bool.and_eq_true, decide_eq_true_eq] at h
        exact ⟨c1, c2 :: c3 :: rest3, rfl, h.1.1.1, h.1.1.2⟩

/-- C8: the private-key-path input of the add flow is accepted (validator
returns no message) iff it is non-empty and syntactically absolute — it
starts with `/` or with an uppercase drive-letter prefix `X:\` — and every
rejected input yields an inline validation message (under which the host
keeps the prompt open). -/
theorem C8_keypath_validation (value : String) :
    (validatePrivateKeyPath value = none ↔
      (value ≠ "" ∧ (jsStartsWithChar value '/' = true ∨ isDrivePath value = true)))
    ∧ (¬ (value ≠ "" ∧
          (jsStartsWithChar value '/' = true ∨ isDrivePath value = true)) →
        ∃ msg, validatePrivateKeyPath value = some msg) := by
  have habs : (jsStartsWithChar value '/' = true ∨ isDrivePath value = true) →
      jsTrim value ≠ "" := by
    intro h
    rcases h with h | h
    · rw [jsStartsWithChar_iff] at h
      rcases hd : value.data with _ | ⟨c, t⟩
      · rw [hd] at h
        cases h
      · rw [hd] at h
        simp only [List.head?_cons, Option.some.injEq] at h
        subst h
        exact jsTrim_ne_empty_of_head hd (by decide)
    · rcases isDrivePath_head h with ⟨c1, t, hd, h1, h2⟩
      exact jsTrim_ne_empty_of_head hd (isJsWs_of_upper h1 h2)
  have hiff : validatePrivateKeyPath value = none ↔
      (jsTrim value ≠ "" ∧
        (jsStartsWithChar value '/' = true ∨ isDrivePath value = true)) := by
    unfold validatePrivateKeyPath
    cases h0 : value == "" <;> cases h1 : jsTrim value == "" <;>
      cases h2 : jsStartsWithChar value '/' <;> cases h3 : isDrivePath value <;>
      simp_all [beq_iff_eq, beq_eq_false_iff_ne] <;> exact absurd rfl h1
  have hval : (value ≠ "" ∧
      (jsStartsWithChar value '/' = true ∨ isDrivePath value = true)) ↔
      (jsTrim value ≠ "" ∧
        (jsStartsWithChar value '/' = true ∨ isDrivePath value = true)) := by
    constructor
    · rintro ⟨h1, h2⟩
      exact ⟨habs h2, h2⟩
    · rintro ⟨h1, h2⟩
      refine ⟨?_, h2⟩
      intro hv
      apply h1
      rw [hv]
      rfl
  refine ⟨hiff.trans hval.symm, fun hrej => ?_⟩
  cases hv : validatePrivateKeyPath value with
  | none => exact absurd ((hiff.trans hval.symm).mp hv) hrej
  | some msg => exact ⟨msg, rfl⟩

/-- Witness for C8 at an accepted absolute path, an accepted drive-letter
path, and two rejected inputs. -/
theorem C8_keypath_validation_witness :
    validatePrivateKeyPath "/keys/a.p8" = none
    ∧ validatePrivateKeyPath "C:\\keys\\a.p8" = none
    ∧ (∃ msg, validatePrivateKeyPath "keys/a.p8" = some msg)
    ∧ (∃ msg, validatePrivateKeyPath "" = some msg) :=
  ⟨(C8_keypath_validation "/keys/a.p8").1.mpr ⟨by decide, Or.inl (by decide)⟩,
   (C8_keypath_validation "C:\\keys\\a.p8").1.mpr ⟨by decide, Or.inr (by decide)⟩,
   (C8_keypath_validation "keys/a.p8").2 (by decide),
   (C8_keypath_validation "").2 (by decide)⟩

theorem splitQuotedAux_append_plain (t rest acc : List Char)
    (h : ∀ c ∈ t, c ≠ ' ' ∧ c ≠ '"') :
    splitQuotedAux (t ++ rest) false acc
      = splitQuotedAux rest false (t.reverse ++ acc) := by
  induction t generalizing acc with
  | nil => simp
  | cons c cs ih =>
      have hc := h c (List.mem_cons_self c cs)
      have hq : (c == '"') = false := beq_eq_false_iff_ne.mpr hc.2
      have hs : (c == ' ') = false := beq_eq_false_iff_ne.mpr hc.1
      rw [List.cons_append]
      simp only [splitQuotedAux]
      rw [hq, if_neg Bool.false_ne_true, hs, Bool.false_and,
        if_neg Bool.false_ne_true,
        ih (c :: acc) (fun b hb => h b (List.mem_cons_of_mem c hb)),
        List.reverse_cons, List.append_assoc, List.singleton_append]

theorem splitQuotedAux_append_inquote (m rest acc : List Char)
    (h : ∀ c ∈ m, c ≠ '"') :
    splitQuotedAux (m ++ rest) true acc
      = splitQuotedAux rest true (m.reverse ++ acc) := by
  induction m generalizing acc with
  | nil => simp
  | cons c cs ih =>
      have hq : (c == '"') = false :=
        beq_eq_false_iff_ne.mpr (h c (List.mem_cons_self c cs))
      rw [List.cons_append]
      simp only [splitQuotedAux]
      rw [hq, if_neg Bool.false_ne_true, Bool.not_true, Bool.and_false,
        if_neg Bool.false_ne_true,
        ih (c :: acc) (fun b hb => h b (List.mem_cons_of_mem c hb)),
        List.reverse_cons, List.append_assoc, List.singleton_append]

theorem splitQuotedAux_consume (t : String) (h : WfToken t)
    (rest acc : List Char) :
    splitQuotedAux (t.data ++ rest) false acc
      = splitQuotedAux rest false (t.data.reverse ++ acc) := by
  rcases h with ⟨hne, hpl⟩ | ⟨m, hm, hq⟩
  · exact splitQuotedAux_append_plain t.data rest acc hpl
  · have hstep1 : splitQuotedAux (t.data ++ rest) false acc
        = splitQuotedAux ('"' :: rest) true (m.reverse ++ ('"' :: acc)) := by
      rw [hm, List.cons_append, List.cons_append, List.append_assoc,
        List.singleton_append]
      simp only [splitQuotedAux]
      rw [if_pos (beq_self_eq_true '"'), Bool.not_false]
      exact splitQuotedAux_append_inquote m _ _ hq
    rw [hstep1]
    simp only [splitQuotedAux]
    rw [if_pos (beq_self_eq_true '"'), Bool.not_true]
    congr 1
    rw [hm]
    simp [List.reverse_cons, List.reverse_append, List.append_assoc]

theorem string_mk_data (s : String) : String.mk s.data = s := rfl

theorem wfToken_ne_empty {t : String} (h : WfToken t) : t ≠ "" := by
  rcases h with ⟨hne, _⟩ | ⟨m, hm, _⟩
  · exact hne
  · intro he
    rw [he] at hm
    cases hm

theorem wfToken_data_ne_nil {t : String} (h : WfToken t) : t.data ≠ [] := by
  intro he
  exact wfToken_ne_empty h (String.ext he)

theorem splitQuoted_joinSpace (ts : List String)
    (h : ∀ t ∈ ts, t = "" ∨ WfToken t) :
    splitQuoted (joinSpace ts) = ts.filter (fun t => t != "") := by
  induction ts with
  | nil => rfl
  | cons t ts ih =>
      cases ts with
      | nil =>
          rcases h t (List.mem_cons_self t []) with rfl | hwf
          · rfl
          · have hcons := splitQuotedAux_consume t hwf [] []
            rw [List.append_nil, List.append_nil] at hcons
            have hne2 : ¬ (t.data.reverse.isEmpty = true) := by
              rw [List.isEmpty_iff, List.reverse_eq_nil_iff]
              exact wfToken_data_ne_nil hwf
            have hbne : (t != "") = true := bne_iff_ne.mpr (wfToken_ne_empty hwf)
            show splitQuotedAux t.data false [] = [t].filter (fun x => x != "")
            rw [hcons]
            simp only [splitQuotedAux]
            rw [if_neg hne2, List.reverse_reverse]
            simp [List.filter, hbne, string_mk_data]
      | cons t2 ts2 =>
          have hdata : (joinSpace (t :: t2 :: ts2)).data
              = t.data ++ (' ' :: (joinSpace (t2 :: ts2)).data) := by
            show ((t ++ " ") ++ joinSpace (t2 :: ts2)).data = _
            rw [String.data_append, String.data_append, List.append_assoc]
            rfl
          have ihr : splitQuotedAux (joinSpace (t2 :: ts2)).data false []
              = List.filter (fun x => x != "") (t2 :: ts2) :=
            ih fun b hb => h b (List.mem_cons_of_mem t hb)
          rcases h t (List.mem_cons_self t (t2 :: ts2)) with rfl | hwf
          · show splitQuotedAux (joinSpace ("" :: t2 :: ts2)).data false [] = _
            rw [hdata]
            show splitQuotedAux (' ' :: (joinSpace (t2 :: ts2)).data) false [] = _
            simp only [splitQuotedAux]
            rw [if_neg (by decide : ¬ ((' ' == '"') = true)),
              if_pos (by decide : ((' ' == ' ' && !false) = true)),
              if_pos (by decide : (List.isEmpty ([] : List Char) = true))]
            rw [ihr]
            simp [List.filter_cons]
          · have hne2 : ¬ (t.data.reverse.isEmpty = true) := by
              rw [List.isEmpty_iff, List.reverse_eq_nil_iff]
              exact wfToken_data_ne_nil hwf
            have hbne : (t != "") = true := bne_iff_ne.mpr (wfToken_ne_empty hwf)
            show splitQuotedAux (joinSpace (t :: t2 :: ts2)).data false [] = _
            rw [hdata]
            have hcons := splitQuotedAux_consume t hwf
              (' ' :: (joinSpace (t2 :: ts2)).data) []
            rw [List.append_nil] at hcons
            rw [hcons]
            simp only [splitQuotedAux]
            rw [if_neg (by decide : ¬ ((' ' == '"') = true)),
              if_pos (by decide : ((' ' == ' ' && !false) = true)),
              if_neg hne2, List.reverse_reverse]
            rw [ihr]
            simp [List.filter_cons, hbne, string_mk_data]

theorem jsSplitCharAux_no_sep (sep : Char) (l : List Char) :
    ∀ acc, (∀ c ∈ acc, c ≠ sep) →
      ∀ t ∈ jsSplitCharAux sep l acc, ∀ c ∈ t.data, c ≠ sep := by
  induction l with
  | nil =>
      intro acc hacc t ht c hc
      simp only [jsSplitCharAux, List.mem_singleton] at ht
      subst ht
      exact hacc c (List.mem_reverse.mp hc)
  | cons a as ih =>
      intro acc hacc t ht c hc
      by_cases ha : (a == sep) = true
      · simp only [jsSplitCharAux, if_pos ha] at ht
        rcases List.mem_cons.mp ht with rfl | ht2
        · exact hacc c (List.mem_reverse.mp hc)
        · exact ih [] (fun x hx => absurd hx (List.not_mem_nil x)) t ht2 c hc
      · simp only [jsSplitCharAux, if_neg ha] at ht
        refine ih (a :: acc) ?_ t ht c hc
        intro x hx
        rcases List.mem_cons.mp hx with rfl | hx2
        · exact beq_eq_false_iff_ne.mp (Bool.eq_false_iff.mpr ha)
        · exact hacc x hx2

theorem extraArgTokens_no_space (additionalParams : String) :
    ∀ t ∈ extraArgTokens additionalParams, ∀ c ∈ t.data, c ≠ ' ' := by
  unfold extraArgTokens
  by_cases h : (jsTrim additionalParams == "") = true
  · rw [if_pos h]
    intro t ht
    exact absurd ht (List.not_mem_nil t)
  · rw [if_neg h]
    exact jsSplitCharAux_no_sep ' ' _ []
      (fun c hc => absurd hc (List.not_mem_nil c))

theorem wfToken_quotePath (p : String) (h0 : p ≠ "")
    (hq : ∀ c ∈ p.data, c ≠ '"') : WfToken (quotePath p) := by
  unfold quotePath
  by_cases hb : (jsIncludesChar p ' ' && !jsStartsWithChar p '"') = true
  · rw [if_pos hb]
    right
    refine ⟨p.data, ?_, hq⟩
    rw [String.data_append, String.data_append]
    simp [List.append_assoc]
  · rw [if_neg hb]
    left
    have hcase : jsIncludesChar p ' ' = false
        ∨ jsStartsWithChar p '"' = true := by
      cases hinc : jsIncludesChar p ' '
      · exact Or.inl rfl
      · cases hst : jsStartsWithChar p '"'
        · exfalso
          apply hb
          rw [hinc, hst]
          rfl
        · exact Or.inr rfl
    refine ⟨h0, fun c hc => ⟨?_, hq c hc⟩⟩
    rcases hcase with hinc | hst
    · intro hcs
      subst hcs
      have hmem : (' ' ∈ p.data) := hc
      have := (jsIncludesChar_iff p ' ').mpr hmem
      rw [hinc] at this
      cases this
    · exfalso
      rw [jsStartsWithChar_iff] at hst
      rcases hd : p.data with _ | ⟨c0, t0⟩
      · rw [hd] at hst
        cases hst
      · rw [hd] at hst
        simp only [List.head?_cons, Option.some.injEq] at hst
        have hc0 : c0 ∈ p.data := by
          rw [hd]
          exact List.mem_cons_self c0 t0
        exact hq c0 hc0 hst

theorem quotePath_ne_of_ne (p flag : String)
    (hne : p ≠ flag) (hflag : flag.data.head? ≠ some '"') :
    quotePath p ≠ flag := by
  unfold quotePath
  by_cases hb : (jsIncludesChar p ' ' && !jsStartsWithChar p '"') = true
  · rw [if_pos hb]
    intro he
    apply hflag
    rw [← he, String.data_append, String.data_append]
    rfl
  · rw [if_neg hb]
    exact hne

/-- C1 (amended): provided none of the base-command tokens, the two
directory paths, the target, or the extra-argument tokens contains a double
quote, the directories are non-empty, base and target tokens are non-empty
and space-free, and none of these equals "--project-dir" or
"--profiles-dir", the assembled command line, split back on whitespace
respecting quoted segments, is exactly the base tokens followed by
"--project-dir", the quoted project directory, "--profiles-dir", the quoted
profiles directory, "--target", the target, and the non-empty
extra-argument tokens; hence it ends with "--target <target>" immediately
preceding the extra-argument tokens and contains "--project-dir" and
"--profiles-dir" exactly once each.  (Without the flag-collision
hypotheses the exactly-once clause is false; see the counterexample.) -/
theorem C1_command_shape (dbtCommand fullDbtPath profilesPath environment
    additionalParams : String)
    (hbase : ∀ t ∈ jsSplitChar dbtCommand ' ',
      t ≠ "" ∧ (∀ c ∈ t.data, c ≠ ' ' ∧ c ≠ '"')
        ∧ t ≠ "--project-dir" ∧ t ≠ "--profiles-dir")
    (hproj : fullDbtPath ≠ "" ∧ (∀ c ∈ fullDbtPath.data, c ≠ '"')
        ∧ fullDbtPath ≠ "--project-dir" ∧ fullDbtPath ≠ "--profiles-dir")
    (hprof : profilesPath ≠ "" ∧ (∀ c ∈ profilesPath.data, c ≠ '"')
        ∧ profilesPath ≠ "--project-dir" ∧ profilesPath ≠ "--profiles-dir")
    (henv : environment ≠ "" ∧ (∀ c ∈ environment.data, c ≠ ' ' ∧ c ≠ '"')
        ∧ environment ≠ "--project-dir" ∧ environment ≠ "--profiles-dir")
    (hextra : ∀ t ∈ extraArgTokens additionalParams,
      (∀ c ∈ t.data, c ≠ '"')
        ∧ t ≠ "--project-dir" ∧ t ≠ "--profiles-dir") :
    splitQuoted (executeDbtFullCommand dbtCommand fullDbtPath profilesPath
        environment additionalParams)
      = (["poetry", "run", "dbt"] ++ jsSplitChar dbtCommand ' ')
          ++ ["--project-dir", quotePath fullDbtPath,
              "--profiles-dir", quotePath profilesPath,
              "--target", environment]
          ++ (extraArgTokens additionalParams).filter (fun t => t != "")
    ∧ (∃ pre, splitQuoted (executeDbtFullCommand dbtCommand fullDbtPath
          profilesPath environment additionalParams)
        = pre ++ ["--target", environment]
            ++ (extraArgTokens additionalParams).filter (fun t => t != ""))
    ∧ (splitQuoted (executeDbtFullCommand dbtCommand fullDbtPath profilesPath
        environment additionalParams)).count "--project-dir" = 1
    ∧ (splitQuoted (executeDbtFullCommand dbtCommand fullDbtPath profilesPath
        environment additionalParams)).count "--profiles-dir" = 1 := by
  have hqproj := wfToken_quotePath fullDbtPath hproj.1 hproj.2.1
  have hqprof := wfToken_quotePath profilesPath hprof.1 hprof.2.1
  have hwf : ∀ t ∈ executeDbtCommandParts dbtCommand fullDbtPath profilesPath
      environment additionalParams, t = "" ∨ WfToken t := by
    intro t ht
    unfold executeDbtCommandParts at ht
    rcases List.mem_append.mp ht with ht1 | htex
    · rcases List.mem_append.mp ht1 with htb | htm
      · rcases List.mem_append.mp htb with htl | hts
        · right
          left
          fin_cases htl <;> decide
        · have hb := hbase t hts
          exact Or.inr (Or.inl ⟨hb.1, hb.2.1⟩)
      · fin_cases htm
        · exact Or.inr (Or.inl (by decide))
        · exact Or.inr hqproj
        · exact Or.inr (Or.inl (by decide))
        · exact Or.inr hqprof
        · exact Or.inr (Or.inl (by decide))
        · exact Or.inr (Or.inl ⟨henv.1, henv.2.1⟩)
    · by_cases hte : t = ""
      · exact Or.inl hte
      · refine Or.inr (Or.inl ⟨hte, fun c hc => ⟨?_, (hextra t htex).1 c hc⟩⟩)
        exact extraArgTokens_no_space additionalParams t htex c hc
  have hmain : splitQuoted (executeDbtFullCommand dbtCommand fullDbtPath
      profilesPath environment additionalParams)
      = (["poetry", "run", "dbt"] ++ jsSplitChar dbtCommand ' ')
          ++ ["--project-dir", quotePath fullDbtPath,
              "--profiles-dir", quotePath profilesPath,
              "--target", environment]
          ++ (extraArgTokens additionalParams).filter (fun t => t != "") := by
    have hsp := splitQuoted_joinSpace (executeDbtCommandParts dbtCommand
      fullDbtPath profilesPath environment additionalParams) hwf
    rw [show executeDbtFullCommand dbtCommand fullDbtPath profilesPath
        environment additionalParams
      = joinSpace (executeDbtCommandParts dbtCommand fullDbtPath profilesPath
        environment additionalParams) from rfl, hsp]
    unfold executeDbtCommandParts
    have hlit : List.filter (fun t => t != "")
        (["poetry", "run", "dbt"] : List String)
          = ["poetry", "run", "dbt"] := by decide
    have hsplitself : List.filter (fun t => t != "")
        (jsSplitChar dbtCommand ' ') = jsSplitChar dbtCommand ' ' :=
      List.filter_eq_self.mpr fun a ha => bne_iff_ne.mpr (hbase a ha).1
    have hmidself : List.filter (fun t => t != "")
        ["--project-dir", quotePath fullDbtPath, "--profiles-dir",
          quotePath profilesPath, "--target", environment]
        = ["--project-dir", quotePath fullDbtPath, "--profiles-dir",
            quotePath profilesPath, "--target", environment] := by
      apply List.filter_eq_self.mpr
      intro a ha
      fin_cases ha
      · decide
      · exact bne_iff_ne.mpr (wfToken_ne_empty hqproj)
      · decide
      · exact bne_iff_ne.mpr (wfToken_ne_empty hqprof)
      · decide
      · exact bne_iff_ne.mpr henv.1
    rw [List.filter_append, List.filter_append, List.filter_append,
      hlit, hsplitself, hmidself]
  refine ⟨hmain, ⟨(["poetry", "run", "dbt"] ++ jsSplitChar dbtCommand ' ')
      ++ ["--project-dir", quotePath fullDbtPath,
          "--profiles-dir", quotePath profilesPath], ?_⟩, ?_, ?_⟩
  · rw [hmain]
    simp [List.append_assoc]
  · rw [hmain]
    have e1 : (quotePath fullDbtPath == ("--project-dir" : String)) = false :=
      beq_eq_false_iff_ne.mpr
        (quotePath_ne_of_ne _ _ hproj.2.2.1 (by decide))
    have e2 : (quotePath profilesPath == ("--project-dir" : String)) = false :=
      beq_eq_false_iff_ne.mpr
        (quotePath_ne_of_ne _ _ hprof.2.2.1 (by decide))
    have e3 : (environment == ("--project-dir" : String)) = false :=
      beq_eq_false_iff_ne.mpr henv.2.2.1
    have hb0 : List.count "--project-dir" (jsSplitChar dbtCommand ' ') = 0 :=
      List.count_eq_zero_of_not_mem fun hm => (hbase _ hm).2.2.1 rfl
    have hc0 : List.count "--project-dir"
        ((extraArgTokens additionalParams).filter (fun t => t != "")) = 0 :=
      List.count_eq_zero_of_not_mem fun hm =>
        (hextra _ (List.mem_filter.mp hm).1).2.1 rfl
    have l0 : List.count "--project-dir"
        (["poetry", "run", "dbt"] : List String) = 0 := by decide
    have l1 : (("--project-dir" : String) == "--project-dir") = true := by
      decide
    have l2 : (("--profiles-dir" : String) == "--project-dir") = false := by
      decide
    have l3 : (("--target" : String) == "--project-dir") = false := by decide
    simp [List.count_append, List.count_cons, hb0, hc0, l0, l1, l2, l3,
      e1, e2, e3]
  · rw [hmain]
    have e1 : (quotePath fullDbtPath == ("--profiles-dir" : String)) = false :=
      beq_eq_false_iff_ne.mpr
        (quotePath_ne_of_ne _ _ hproj.2.2.2 (by decide))
    have e2 : (quotePath profilesPath == ("--profiles-dir" : String)) = false :=
      beq_eq_false_iff_ne.mpr
        (quotePath_ne_of_ne _ _ hprof.2.2.2 (by decide))
    have e3 : (environment == ("--profiles-dir" : String)) = false :=
      beq_eq_false_iff_ne.mpr henv.2.2.2
    have hb0 : List.count "--profiles-dir" (jsSplitChar dbtCommand ' ') = 0 :=
      List.count_eq_zero_of_not_mem fun hm => (hbase _ hm).2.2.2 rfl
    have hc0 : List.count "--profiles-dir"
        ((extraArgTokens additionalParams).filter (fun t => t != "")) = 0 :=
      List.count_eq_zero_of_not_mem fun hm =>
        (hextra _ (List.mem_filter.mp hm).1).2.2 rfl
    have l0 : List.count "--profiles-dir"
        (["poetry", "run", "dbt"] : List String) = 0 := by decide
    have l1 : (("--profiles-dir" : String) == "--profiles-dir") = true := by
      decide
    have l2 : (("--project-dir" : String) == "--profiles-dir") = false := by
      decide
    have l3 : (("--target" : String) == "--profiles-dir") = false := by decide
    simp [List.count_append, List.count_cons, hb0, hc0, l0, l1, l2, l3,
      e1, e2, e3]

/-- C1 counterexample: with the extra-arguments string "--project-dir" the
assembled command line, split back on whitespace, contains the token
"--project-dir" twice, refuting the universally quantified exactly-once
clause of the claim. -/
theorem C1_counterexample :
    (splitQuoted (executeDbtFullCommand "run" "/w/dbt" "/w/dbt/profiles"
        "dev" "--project-dir")).count "--project-dir" ≠ 1
    ∧ (splitQuoted (executeDbtFullCommand "run" "/w/dbt" "/w/dbt/profiles"
        "dev" "--project-dir")).count "--project-dir" = 2 := by
  refine ⟨by decide, by decide⟩

/-- Witness for C1 (amended) at a concrete invocation with spaces in the
directories and two extra arguments. -/
theorem C1_command_shape_witness :
    splitQuoted (executeDbtFullCommand "run" "/w s/dbt" "/w s/dbt/profiles"
        "dev" " --full-refresh  --select orders ")
      = (["poetry", "run", "dbt"] ++ jsSplitChar "run" ' ')
          ++ ["--project-dir", quotePath "/w s/dbt",
              "--profiles-dir", quotePath "/w s/dbt/profiles",
              "--target", "dev"]
          ++ (extraArgTokens " --full-refresh  --select orders ").filter
              (fun t => t != "")
    ∧ (∃ pre, splitQuoted (executeDbtFullCommand "run" "/w s/dbt"
          "/w s/dbt/profiles" "dev" " --full-refresh  --select orders ")
        = pre ++ ["--target", "dev"]
            ++ (extraArgTokens " --full-refresh  --select orders ").filter
                (fun t => t != ""))
    ∧ (splitQuoted (executeDbtFullCommand "run" "/w s/dbt" "/w s/dbt/profiles"
        "dev" " --full-refresh  --select orders ")).count "--project-dir" = 1
    ∧ (splitQuoted (executeDbtFullCommand "run" "/w s/dbt" "/w s/dbt/profiles"
        "dev" " --full-refresh  --select orders ")).count "--profiles-dir"
          = 1 :=
  C1_command_shape "run" "/w s/dbt" "/w s/dbt/profiles" "dev"
    " --full-refresh  --select orders " (by decide) (by decide) (by decide)
    (by decide) (by decide)

end DbtRunnerSpec
